import Mathlib

/-!
# Verification of the room-based one-to-one chat relay

Shallow embedding of `src/notes/fast_api_one_to_one_chat_full_backend.py`.

The program keeps two process-wide Python dicts:
  * `rooms : Dict[str, List[WebSocket]]`
  * `chat_history : Dict[str, List[str]]`
and a `ConnectionManager` with `connect`, `disconnect`, `broadcast`, plus
REST endpoints `create_room`, `list_rooms`, `get_chat_history` and a
websocket endpoint running a receive loop.

WebSocket connection handles are modelled as natural numbers; network
effects (`accept`, `send_text`, `close`) are modelled as data: a broadcast
returns the list of (recipient, message) deliveries it performs.
Python dicts are modelled as insertion-ordered association lists with the
exact assignment / deletion / membership semantics of `dict`.
-/

namespace Chat

/-- A process-local websocket connection handle (`WebSocket` object identity). -/
abbrev Handle := Nat

/-- Dict read `d[k]`: first (and, for dict-built lists, only) binding of `k`. -/
def dlookup {α : Type} (k : String) : List (String × α) → Option α
  | [] => none
  | (k', v) :: rest => if k' = k then some v else dlookup k rest

/-- Dict assignment `d[k] = v`: replace the binding in place if `k` is
present, otherwise append the new binding (dict insertion order). -/
def dinsert {α : Type} (k : String) (v : α) : List (String × α) → List (String × α)
  | [] => [(k, v)]
  | (k', v') :: rest => if k' = k then (k, v) :: rest else (k', v') :: dinsert k v rest

/-- Dict deletion `del d[k]`: remove the binding of `k` (dict keys are unique, so removing
every binding of `k` coincides with Python's single-key deletion). -/
def derase {α : Type} (k : String) : List (String × α) → List (String × α)
  | [] => []
  | (k', v) :: rest => if k' = k then derase k rest else (k', v) :: derase k rest

/-- Key listing `list(d.keys())` in insertion order. -/
def dkeys {α : Type} (d : List (String × α)) : List String :=
  d.map Prod.fst

/-- The two module-level stores `rooms` and `chat_history`. -/
structure ChatState where
  rooms : List (String × List Handle)
  chat_history : List (String × List String)
deriving Repr, DecidableEq

/-- Server start: both dicts empty. -/
def initState : ChatState := ⟨[], []⟩

/-- Method `ConnectionManager.connect(websocket, room_code)`.
First, if `room_code not in rooms`, both `rooms[room_code]` and
`chat_history[room_code]` are initialised to `[]`.  Then, if
`len(rooms[room_code]) >= 2`, the socket is told "Room is full" and closed
and the call returns `False` with no further state change; otherwise the
socket is appended to `rooms[room_code]` and the call returns `True`.
(`(dlookup ...).getD []` reads `rooms[room_code]`, which the preceding
conditional insertion guarantees to be present.) -/
def connect (websocket : Handle) (room_code : String) (s : ChatState) :
    ChatState × Bool :=
  let s1 :=
    if dlookup room_code s.rooms = none then
      { rooms := dinsert room_code ([] : List Handle) s.rooms,
        chat_history := dinsert room_code ([] : List String) s.chat_history }
    else s
  let members := (dlookup room_code s1.rooms).getD []
  if members.length ≥ 2 then
    (s1, false)
  else
    ({ s1 with rooms := dinsert room_code (members ++ [websocket]) s1.rooms }, true)

/-- Method `ConnectionManager.disconnect(websocket, room_code)`.
If `room_code in rooms and websocket in rooms[room_code]`, the websocket is
removed from the member list (`list.remove`: first occurrence); if the list
becomes empty, both `rooms[room_code]` and `chat_history[room_code]` are
deleted. -/
def disconnect (websocket : Handle) (room_code : String) (s : ChatState) :
    ChatState :=
  match dlookup room_code s.rooms with
  | none => s
  | some members =>
    if websocket ∈ members then
      let members' := members.erase websocket
      if members'.length = 0 then
        { rooms := derase room_code s.rooms,
          chat_history := derase room_code s.chat_history }
      else
        { s with rooms := dinsert room_code members' s.rooms }
    else s

/-- Method `ConnectionManager.broadcast(message, room_code, sender)`.
If `room_code in rooms`, sends `message` to every connection in
`rooms[room_code]` other than `sender`, in member-list order.  Broadcasting
never mutates either dict, so only the performed deliveries are returned. -/
def broadcast (message : String) (room_code : String) (sender : Handle)
    (s : ChatState) : List (Handle × String) :=
  match dlookup room_code s.rooms with
  | none => []
  | some members =>
    (members.filter (fun c => c != sender)).map (fun c => (c, message))

/-- One iteration of the websocket endpoint's receive loop after `data` is
received: `chat_history[room_code].append(data)` followed by
`manager.broadcast(data, room_code, websocket)`.  The history indexing is
unguarded in the source, so a missing `room_code` key raises `KeyError`;
that uncaught-exception outcome is modelled by `none`. -/
def recordAndBroadcast (room_code : String) (websocket : Handle)
    (data : String) (s : ChatState) :
    Option (ChatState × List (Handle × String)) :=
  match dlookup room_code s.chat_history with
  | none => none
  | some msgs =>
    let s' := { s with
      chat_history := dinsert room_code (msgs ++ [data]) s.chat_history }
    some (s', broadcast data room_code websocket s')

/-- Endpoint `POST /create-room`: `room_code = str(uuid4())[:8]`, then
`rooms[room_code] = []` and `chat_history[room_code] = []`.  The generated
code is passed in as a parameter. -/
def create_room (room_code : String) (s : ChatState) : ChatState :=
  { rooms := dinsert room_code ([] : List Handle) s.rooms,
    chat_history := dinsert room_code ([] : List String) s.chat_history }

/-- Endpoint `GET /rooms`: `list(rooms.keys())`. -/
def list_rooms (s : ChatState) : List String :=
  dkeys s.rooms

/-- Endpoint `GET /rooms/{room_code}/history`: 404 (modelled as `none`) when
`room_code not in chat_history`, otherwise the stored messages. -/
def get_chat_history (room_code : String) (s : ChatState) :
    Option (List String) :=
  match dlookup room_code s.chat_history with
  | none => none
  | some msgs => some msgs

/-- How an accepted session's receive loop terminates: the awaited
`receive_text` (or a send inside the loop body) raises
`WebSocketDisconnect`, or it raises some other exception
(network/runtime error, task cancellation). -/
inductive ExitSignal where
  | wsDisconnect
  | otherError
deriving Repr, DecidableEq

/-- The receive loop of `websocket_endpoint` for an accepted session,
processing the inbound messages `msgs` and then terminating with `sig`.
Only `WebSocketDisconnect` is caught (`except WebSocketDisconnect:`), and
only that handler calls `manager.disconnect`; any other exception — the
terminating `sig = otherError`, or the `KeyError` from the unguarded
history append (`recordAndBroadcast = none`) — propagates without a
`disconnect` call.  Returns the final state together with the number of
`disconnect` calls made. -/
def receiveLoop (room_code : String) (websocket : Handle) :
    List String → ExitSignal → ChatState → ChatState × Nat
  | [], sig, s =>
    match sig with
    | .wsDisconnect => (disconnect websocket room_code s, 1)
    | .otherError => (s, 0)
  | data :: rest, sig, s =>
    match recordAndBroadcast room_code websocket data s with
    | none => (s, 0)
    | some (s', _) => receiveLoop room_code websocket rest sig s'

/-- Endpoint `websocket_endpoint(websocket, room_code)`: `manager.connect`, return
immediately if rejected, otherwise run the receive loop.  Returns the final
state and the number of `manager.disconnect` calls made. -/
def websocket_endpoint (websocket : Handle) (room_code : String)
    (msgs : List String) (sig : ExitSignal) (s : ChatState) :
    ChatState × Nat :=
  match connect websocket room_code s with
  | (s1, false) => (s1, 0)
  | (s1, true) => receiveLoop room_code websocket msgs sig s1

/-- Method `ConnectionManager.broadcast` when some recipients' channels have
failed: `await connection.send_text(message)` raises on a failed channel,
and the exception propagates out of the `for` loop (and out of
`broadcast`) into the sender's session, aborting the remaining deliveries.
`sendLoop` models the loop body over the member list: `Except.error c` is
the exception raised while sending to the failed member `c`;
`Except.ok ds` lists the successful deliveries. -/
def sendLoop (failed : Handle → Bool) (message : String) (sender : Handle) :
    List Handle → Except Handle (List (Handle × String))
  | [] => .ok []
  | c :: rest =>
    if c == sender then sendLoop failed message sender rest
    else if failed c then .error c
    else
      match sendLoop failed message sender rest with
      | .ok ds => .ok ((c, message) :: ds)
      | .error e => .error e

/-- Method `ConnectionManager.broadcast` with channel failures (see `sendLoop`).
It never mutates `rooms` or `chat_history`, and in particular performs no
`disconnect`/leave of the failed member. -/
def broadcastExc (failed : Handle → Bool) (message : String)
    (room_code : String) (sender : Handle) (s : ChatState) :
    Except Handle (List (Handle × String)) :=
  match dlookup room_code s.rooms with
  | none => .ok []
  | some members => sendLoop failed message sender members

/-- States reachable from server start by completed operations:
room creation, connect, disconnect, and receive-loop iterations. -/
inductive Reachable : ChatState → Prop where
  | init : Reachable initState
  | create (code : String) (s : ChatState) :
      Reachable s → Reachable (create_room code s)
  | conn (ws : Handle) (code : String) (s : ChatState) :
      Reachable s → Reachable (connect ws code s).1
  | disc (ws : Handle) (code : String) (s : ChatState) :
      Reachable s → Reachable (disconnect ws code s)
  | record (code : String) (ws : Handle) (data : String) (s s' : ChatState)
      (ds : List (Handle × String)) :
      Reachable s → recordAndBroadcast code ws data s = some (s', ds) →
      Reachable s'

/-- States reachable by connect/disconnect/receive-loop steps only
(no eager `create_room`). -/
inductive ReachableNC : ChatState → Prop where
  | init : ReachableNC initState
  | conn (ws : Handle) (code : String) (s : ChatState) :
      ReachableNC s → ReachableNC (connect ws code s).1
  | disc (ws : Handle) (code : String) (s : ChatState) :
      ReachableNC s → ReachableNC (disconnect ws code s)
  | record (code : String) (ws : Handle) (data : String) (s s' : ChatState)
      (ds : List (Handle × String)) :
      ReachableNC s → recordAndBroadcast code ws data s = some (s', ds) →
      ReachableNC s'

/-! ## Association-list (Python dict) lemmas -/

theorem dlookup_dinsert_self {α : Type} (k : String) (v : α)
    (d : List (String × α)) : dlookup k (dinsert k v d) = some v := by
  induction d with
  | nil => simp [dinsert, dlookup]
  | cons p rest ih =>
    obtain ⟨k', v'⟩ := p
    by_cases h : k' = k
    · simp [dinsert, dlookup, h]
    · simp [dinsert, dlookup, h, ih]

theorem dlookup_dinsert_ne {α : Type} {k k' : String} (h : k' ≠ k) (v : α)
    (d : List (String × α)) : dlookup k' (dinsert k v d) = dlookup k' d := by
  have hk : k ≠ k' := Ne.symm h
  induction d with
  | nil => simp [dinsert, dlookup, hk]
  | cons p rest ih =>
    obtain ⟨a, b⟩ := p
    by_cases ha : a = k
    · subst ha
      simp [dinsert, dlookup, hk]
    · simp [dinsert, dlookup, ha, ih]

theorem dlookup_derase_self {α : Type} (k : String) (d : List (String × α)) :
    dlookup k (derase k d) = none := by
  induction d with
  | nil => simp [derase, dlookup]
  | cons p rest ih =>
    obtain ⟨a, b⟩ := p
    by_cases ha : a = k
    · simp [derase, ha, ih]
    · simp [derase, dlookup, ha, ih]

theorem dlookup_derase_ne {α : Type} {k k' : String} (h : k' ≠ k)
    (d : List (String × α)) : dlookup k' (derase k d) = dlookup k' d := by
  have hk : k ≠ k' := Ne.symm h
  induction d with
  | nil => simp [derase]
  | cons p rest ih =>
    obtain ⟨a, b⟩ := p
    by_cases ha : a = k
    · subst ha
      simp [derase, dlookup, hk, ih]
    · simp [derase, dlookup, ha, ih]

theorem mem_dkeys {α : Type} (k : String) (d : List (String × α)) :
    k ∈ dkeys d ↔ (dlookup k d).isSome := by
  induction d with
  | nil => simp [dkeys, dlookup]
  | cons p rest ih =>
    obtain ⟨a, b⟩ := p
    by_cases ha : a = k
    · simp [dkeys, dlookup, ha]
    · simp [dkeys, dlookup, ha, Ne.symm ha, ← ih]

/-! ## Case-analysis lemmas for the manager operations -/

/-- Operation `connect` takes exactly one of three paths: the room is new (created
empty, then the caller is appended and accepted), the room exists and is
full (rejected, state untouched), or the room exists with spare capacity
(caller appended, accepted). -/
theorem connect_spec (ws : Handle) (code : String) (s : ChatState) :
    (dlookup code s.rooms = none ∧
      (connect ws code s).1.rooms = dinsert code [ws] (dinsert code [] s.rooms) ∧
      (connect ws code s).1.chat_history = dinsert code [] s.chat_history ∧
      (connect ws code s).2 = true) ∨
    (∃ m, dlookup code s.rooms = some m ∧ m.length ≥ 2 ∧
      connect ws code s = (s, false)) ∨
    (∃ m, dlookup code s.rooms = some m ∧ m.length < 2 ∧
      (connect ws code s).1.rooms = dinsert code (m ++ [ws]) s.rooms ∧
      (connect ws code s).1.chat_history = s.chat_history ∧
      (connect ws code s).2 = true) := by
  by_cases h0 : dlookup code s.rooms = none
  · left
    refine ⟨h0, ?_, ?_, ?_⟩ <;> simp [connect, h0, dlookup_dinsert_self]
  · right
    obtain ⟨m, hm⟩ := Option.ne_none_iff_exists'.mp h0
    by_cases h2 : m.length ≥ 2
    · left
      exact ⟨m, hm, h2, by simp [connect, hm, h2]⟩
    · right
      refine ⟨m, hm, by omega, ?_, ?_, ?_⟩ <;> simp [connect, hm, h2]

/-- Operation `disconnect` takes exactly one of four paths: absent room (no-op),
non-member websocket (no-op), last member removed (room and history both
deleted), or member removed with others remaining. -/
theorem disconnect_spec (ws : Handle) (code : String) (s : ChatState) :
    (dlookup code s.rooms = none ∧ disconnect ws code s = s) ∨
    (∃ m, dlookup code s.rooms = some m ∧ ws ∉ m ∧ disconnect ws code s = s) ∨
    (∃ m, dlookup code s.rooms = some m ∧ ws ∈ m ∧ m.erase ws = [] ∧
      (disconnect ws code s).rooms = derase code s.rooms ∧
      (disconnect ws code s).chat_history = derase code s.chat_history) ∨
    (∃ m, dlookup code s.rooms = some m ∧ ws ∈ m ∧ m.erase ws ≠ [] ∧
      (disconnect ws code s).rooms = dinsert code (m.erase ws) s.rooms ∧
      (disconnect ws code s).chat_history = s.chat_history) := by
  match h0 : dlookup code s.rooms with
  | none => exact Or.inl ⟨rfl, by simp [disconnect, h0]⟩
  | some m =>
    by_cases hmem : ws ∈ m
    · by_cases hempty : m.erase ws = []
      · refine Or.inr (Or.inr (Or.inl ⟨m, rfl, hmem, hempty, ?_, ?_⟩))
        all_goals
          have hlen : m.length - 1 = 0 := by
            rw [← List.length_erase_of_mem hmem, hempty]
            rfl
          simp [disconnect, h0, hmem, hempty, hlen]
      · refine Or.inr (Or.inr (Or.inr ⟨m, rfl, hmem, hempty, ?_, ?_⟩))
        all_goals
          have hlen : ¬ m.length - 1 = 0 := by
            rw [← List.length_erase_of_mem hmem]
            simpa using hempty
          simp [disconnect, h0, hmem, hempty, hlen]
    · exact Or.inr (Or.inl ⟨m, rfl, hmem, by simp [disconnect, h0, hmem]⟩)

/-- Shape of a successful receive-loop iteration: the history entry existed,
the message is appended to it, `rooms` is untouched, and the deliveries are
the broadcast computed on the post-append state. -/
theorem recordAndBroadcast_spec (code : String) (ws : Handle) (data : String)
    (s s' : ChatState) (ds : List (Handle × String))
    (h : recordAndBroadcast code ws data s = some (s', ds)) :
    ∃ msgs, dlookup code s.chat_history = some msgs ∧
      s' = { s with chat_history := dinsert code (msgs ++ [data]) s.chat_history } ∧
      ds = broadcast data code ws s' := by
  cases h0 : dlookup code s.chat_history with
  | none => simp [recordAndBroadcast, h0] at h
  | some msgs =>
    simp only [recordAndBroadcast, h0, Option.some.injEq, Prod.mk.injEq] at h
    obtain ⟨h1, h2⟩ := h
    exact ⟨msgs, rfl, h1.symm, by rw [← h2, h1]⟩

/-! ## Invariants -/

/-- Every registered member list holds at most 2 connections. -/
def RoomsBounded (s : ChatState) : Prop :=
  ∀ c m, dlookup c s.rooms = some m → m.length ≤ 2

/-- Maps `rooms` and `chat_history` bind exactly the same keys. -/
def KeysAligned (s : ChatState) : Prop :=
  ∀ c, (dlookup c s.rooms).isSome = (dlookup c s.chat_history).isSome

/-- Every registered member list is nonempty. -/
def MembersNonempty (s : ChatState) : Prop :=
  ∀ c m, dlookup c s.rooms = some m → m ≠ []

/-- The two fields written by `create_room`. -/
theorem create_room_rooms (code : String) (s : ChatState) :
    (create_room code s).rooms = dinsert code [] s.rooms := rfl

theorem create_room_history (code : String) (s : ChatState) :
    (create_room code s).chat_history = dinsert code [] s.chat_history := rfl

theorem roomsBounded_connect (ws : Handle) (code : String) (s : ChatState)
    (h : RoomsBounded s) : RoomsBounded (connect ws code s).1 := by
  rcases connect_spec ws code s with ⟨h0, hr, hh, hb⟩ | ⟨m, hm, h2, heq⟩ |
    ⟨m, hm, h2, hr, hh, hb⟩
  · intro c mm hc
    rw [hr] at hc
    by_cases hck : c = code
    · subst hck
      rw [dlookup_dinsert_self] at hc
      simp only [Option.some.injEq] at hc
      subst hc
      simp
    · rw [dlookup_dinsert_ne hck, dlookup_dinsert_ne hck] at hc
      exact h c mm hc
  · rw [heq]
    exact h
  · intro c mm hc
    rw [hr] at hc
    by_cases hck : c = code
    · subst hck
      rw [dlookup_dinsert_self] at hc
      simp only [Option.some.injEq] at hc
      subst hc
      simp only [List.length_append, List.length_cons, List.length_nil]
      omega
    · rw [dlookup_dinsert_ne hck] at hc
      exact h c mm hc

theorem roomsBounded_disconnect (ws : Handle) (code : String) (s : ChatState)
    (h : RoomsBounded s) : RoomsBounded (disconnect ws code s) := by
  rcases disconnect_spec ws code s with ⟨h0, heq⟩ | ⟨m, hm, hmem, heq⟩ |
    ⟨m, hm, hmem, hempty, hr, hh⟩ | ⟨m, hm, hmem, hempty, hr, hh⟩
  · rw [heq]; exact h
  · rw [heq]; exact h
  · intro c mm hc
    rw [hr] at hc
    by_cases hck : c = code
    · subst hck
      rw [dlookup_derase_self] at hc
      cases hc
    · rw [dlookup_derase_ne hck] at hc
      exact h c mm hc
  · intro c mm hc
    rw [hr] at hc
    by_cases hck : c = code
    · subst hck
      rw [dlookup_dinsert_self] at hc
      simp only [Option.some.injEq] at hc
      subst hc
      have h1 := h _ m hm
      have h2 := List.length_erase_le ws m
      omega
    · rw [dlookup_dinsert_ne hck] at hc
      exact h c mm hc

theorem roomsBounded_create (code : String) (s : ChatState)
    (h : RoomsBounded s) : RoomsBounded (create_room code s) := by
  intro c mm hc
  rw [create_room_rooms, ] at hc
  by_cases hck : c = code
  · subst hck
    rw [dlookup_dinsert_self] at hc
    simp only [Option.some.injEq] at hc
    subst hc
    simp
  · rw [dlookup_dinsert_ne hck] at hc
    exact h c mm hc

theorem roomsBounded_record (code : String) (ws : Handle) (data : String)
    (s s' : ChatState) (ds : List (Handle × String))
    (hr : recordAndBroadcast code ws data s = some (s', ds))
    (h : RoomsBounded s) : RoomsBounded s' := by
  obtain ⟨msgs, _, hs', _⟩ := recordAndBroadcast_spec code ws data s s' ds hr
  subst hs'
  exact h

theorem keysAligned_connect (ws : Handle) (code : String) (s : ChatState)
    (h : KeysAligned s) : KeysAligned (connect ws code s).1 := by
  rcases connect_spec ws code s with ⟨h0, hr, hh, hb⟩ | ⟨m, hm, h2, heq⟩ |
    ⟨m, hm, h2, hr, hh, hb⟩
  · intro c
    rw [hr, hh]
    by_cases hck : c = code
    · subst hck
      rw [dlookup_dinsert_self, dlookup_dinsert_self]
      rfl
    · rw [dlookup_dinsert_ne hck, dlookup_dinsert_ne hck, dlookup_dinsert_ne hck]
      exact h c
  · rw [heq]
    exact h
  · intro c
    rw [hr, hh]
    by_cases hck : c = code
    · subst hck
      rw [dlookup_dinsert_self, ← h c, hm]
      rfl
    · rw [dlookup_dinsert_ne hck]
      exact h c

theorem keysAligned_disconnect (ws : Handle) (code : String) (s : ChatState)
    (h : KeysAligned s) : KeysAligned (disconnect ws code s) := by
  rcases disconnect_spec ws code s with ⟨h0, heq⟩ | ⟨m, hm, hmem, heq⟩ |
    ⟨m, hm, hmem, hempty, hr, hh⟩ | ⟨m, hm, hmem, hempty, hr, hh⟩
  · rw [heq]; exact h
  · rw [heq]; exact h
  · intro c
    rw [hr, hh]
    by_cases hck : c = code
    · subst hck
      rw [dlookup_derase_self, dlookup_derase_self]
      rfl
    · rw [dlookup_derase_ne hck, dlookup_derase_ne hck]
      exact h c
  · intro c
    rw [hr, hh]
    by_cases hck : c = code
    · subst hck
      rw [dlookup_dinsert_self, ← h c, hm]
      rfl
    · rw [dlookup_dinsert_ne hck]
      exact h c

theorem keysAligned_create (code : String) (s : ChatState)
    (h : KeysAligned s) : KeysAligned (create_room code s) := by
  intro c
  rw [create_room_rooms, create_room_history]
  by_cases hck : c = code
  · subst hck
    rw [dlookup_dinsert_self, dlookup_dinsert_self]
    rfl
  · rw [dlookup_dinsert_ne hck, dlookup_dinsert_ne hck]
    exact h c

theorem keysAligned_record (code : String) (ws : Handle) (data : String)
    (s s' : ChatState) (ds : List (Handle × String))
    (hr : recordAndBroadcast code ws data s = some (s', ds))
    (h : KeysAligned s) : KeysAligned s' := by
  obtain ⟨msgs, hmsgs, hs', _⟩ := recordAndBroadcast_spec code ws data s s' ds hr
  subst hs'
  intro c
  by_cases hck : c = code
  · subst hck
    show (dlookup c s.rooms).isSome = (dlookup c (dinsert c (msgs ++ [data]) s.chat_history)).isSome
    rw [dlookup_dinsert_self, h c, hmsgs]
    rfl
  · show (dlookup c s.rooms).isSome = (dlookup c (dinsert code (msgs ++ [data]) s.chat_history)).isSome
    rw [dlookup_dinsert_ne hck]
    exact h c

theorem membersNonempty_connect (ws : Handle) (code : String) (s : ChatState)
    (h : MembersNonempty s) : MembersNonempty (connect ws code s).1 := by
  rcases connect_spec ws code s with ⟨h0, hr, hh, hb⟩ | ⟨m, hm, h2, heq⟩ |
    ⟨m, hm, h2, hr, hh, hb⟩
  · intro c mm hc
    rw [hr] at hc
    by_cases hck : c = code
    · subst hck
      rw [dlookup_dinsert_self] at hc
      simp only [Option.some.injEq] at hc
      subst hc
      simp
    · rw [dlookup_dinsert_ne hck, dlookup_dinsert_ne hck] at hc
      exact h c mm hc
  · rw [heq]
    exact h
  · intro c mm hc
    rw [hr] at hc
    by_cases hck : c = code
    · subst hck
      rw [dlookup_dinsert_self] at hc
      simp only [Option.some.injEq] at hc
      subst hc
      simp
    · rw [dlookup_dinsert_ne hck] at hc
      exact h c mm hc

theorem membersNonempty_disconnect (ws : Handle) (code : String) (s : ChatState)
    (h : MembersNonempty s) : MembersNonempty (disconnect ws code s) := by
  rcases disconnect_spec ws code s with ⟨h0, heq⟩ | ⟨m, hm, hmem, heq⟩ |
    ⟨m, hm, hmem, hempty, hr, hh⟩ | ⟨m, hm, hmem, hempty, hr, hh⟩
  · rw [heq]; exact h
  · rw [heq]; exact h
  · intro c mm hc
    rw [hr] at hc
    by_cases hck : c = code
    · subst hck
      rw [dlookup_derase_self] at hc
      cases hc
    · rw [dlookup_derase_ne hck] at hc
      exact h c mm hc
  · intro c mm hc
    rw [hr] at hc
    by_cases hck : c = code
    · subst hck
      rw [dlookup_dinsert_self] at hc
      simp only [Option.some.injEq] at hc
      subst hc
      exact hempty
    · rw [dlookup_dinsert_ne hck] at hc
      exact h c mm hc

theorem membersNonempty_record (code : String) (ws : Handle) (data : String)
    (s s' : ChatState) (ds : List (Handle × String))
    (hr : recordAndBroadcast code ws data s = some (s', ds))
    (h : MembersNonempty s) : MembersNonempty s' := by
  obtain ⟨msgs, _, hs', _⟩ := recordAndBroadcast_spec code ws data s s' ds hr
  subst hs'
  exact h

/-- Every state reachable from server start keeps all member lists at
capacity ≤ 2 and keeps `rooms` and `chat_history` keyed identically. -/
theorem reachable_inv (s : ChatState) (h : Reachable s) :
    RoomsBounded s ∧ KeysAligned s := by
  induction h with
  | init =>
    constructor
    · intro c m hc
      cases hc
    · intro c
      rfl
  | create code s hs ih =>
    exact ⟨roomsBounded_create code s ih.1, keysAligned_create code s ih.2⟩
  | conn ws code s hs ih =>
    exact ⟨roomsBounded_connect ws code s ih.1, keysAligned_connect ws code s ih.2⟩
  | disc ws code s hs ih =>
    exact ⟨roomsBounded_disconnect ws code s ih.1, keysAligned_disconnect ws code s ih.2⟩
  | record code ws data s s' ds hs hr ih =>
    exact ⟨roomsBounded_record code ws data s s' ds hr ih.1,
      keysAligned_record code ws data s s' ds hr ih.2⟩

/-- Without the eager `create_room` endpoint, every registered room has at
least one member. -/
theorem reachableNC_nonempty (s : ChatState) (h : ReachableNC s) :
    MembersNonempty s := by
  induction h with
  | init =>
    intro c m hc
    cases hc
  | conn ws code s hs ih => exact membersNonempty_connect ws code s ih
  | disc ws code s hs ih => exact membersNonempty_disconnect ws code s ih
  | record code ws data s s' ds hs hr ih =>
    exact membersNonempty_record code ws data s s' ds hr ih

/-! ## Further helper lemmas -/

/-- Operation `broadcast` in closed form: deliveries go to every current member of
the room other than the sender, in member-list order (and to nobody when
the room is absent). -/
theorem broadcast_eq (message : String) (code : String) (sender : Handle)
    (s : ChatState) :
    broadcast message code sender s =
      (((dlookup code s.rooms).getD []).filter (fun c => c != sender)).map
        (fun c => (c, message)) := by
  cases h : dlookup code s.rooms <;> simp [broadcast, h]

theorem get_chat_history_eq (code : String) (s : ChatState) :
    get_chat_history code s = dlookup code s.chat_history := by
  cases h : dlookup code s.chat_history <;> simp [get_chat_history, h]

theorem disconnect_absent (ws : Handle) (code : String) (s : ChatState)
    (h : dlookup code s.rooms = none) : disconnect ws code s = s := by
  simp [disconnect, h]

theorem disconnect_not_mem (ws : Handle) (code : String) (s : ChatState)
    (m : List Handle) (h : dlookup code s.rooms = some m) (hn : ws ∉ m) :
    disconnect ws code s = s := by
  simp [disconnect, h, hn]

/-- An accepted session's receive loop calls `manager.disconnect` exactly
once when it exits via `WebSocketDisconnect`, and not at all when it exits
via any other exception (assuming the room's history entry is present, so
the unguarded append does not itself raise). -/
theorem receiveLoop_leave_count (code : String) (ws : Handle)
    (msgs : List String) (sig : ExitSignal) (s : ChatState)
    (hh : (dlookup code s.chat_history).isSome = true) :
    (receiveLoop code ws msgs sig s).2 =
      if sig = ExitSignal.wsDisconnect then 1 else 0 := by
  induction msgs generalizing s with
  | nil => cases sig <;> rfl
  | cons m rest ih =>
    cases hx : dlookup code s.chat_history with
    | none => rw [hx] at hh; cases hh
    | some msgs0 =>
      have hred : receiveLoop code ws (m :: rest) sig s =
          receiveLoop code ws rest sig
            { s with chat_history := dinsert code (msgs0 ++ [m]) s.chat_history } := by
        simp [receiveLoop, recordAndBroadcast, hx]
      rw [hred]
      apply ih
      show (dlookup code (dinsert code (msgs0 ++ [m]) s.chat_history)).isSome = true
      rw [dlookup_dinsert_self]
      rfl

/-- The `for` loop inside `broadcast` raises on the first non-sender
member whose channel has failed, if any. -/
theorem sendLoop_error (failed : Handle → Bool) (message : String)
    (sender : Handle) (l : List Handle)
    (hex : ∃ c ∈ l, c ≠ sender ∧ failed c = true) :
    ∃ e ∈ l, e ≠ sender ∧ failed e = true ∧
      sendLoop failed message sender l = .error e := by
  induction l with
  | nil =>
    obtain ⟨c, hc, _⟩ := hex
    cases hc
  | cons a rest ih =>
    obtain ⟨c, hc, hcs, hcf⟩ := hex
    by_cases has : a = sender
    · have hcr : c ∈ rest := by
        cases hc with
        | head => exact absurd has hcs
        | tail _ h => exact h
      obtain ⟨e, he, hes, hef, heq⟩ := ih ⟨c, hcr, hcs, hcf⟩
      refine ⟨e, List.mem_cons_of_mem a he, hes, hef, ?_⟩
      simp [sendLoop, has, heq]
    · by_cases haf : failed a = true
      · refine ⟨a, List.mem_cons_self a rest, has, haf, ?_⟩
        simp [sendLoop, has, haf]
      · have hcr : c ∈ rest := by
          cases hc with
          | head => exact absurd hcf haf
          | tail _ h => exact h
        obtain ⟨e, he, hes, hef, heq⟩ := ih ⟨c, hcr, hcs, hcf⟩
        refine ⟨e, List.mem_cons_of_mem a he, hes, hef, ?_⟩
        simp [sendLoop, has, haf, heq]

/-- A room previously registered with members `[1, 2]`. -/
def fullState : ChatState := ⟨[("r", [1, 2])], [("r", [])]⟩

/-- A room holding the two members `0` and `1` with empty history. -/
def pairState : ChatState := ⟨[("r", [0, 1])], [("r", [])]⟩

/-- A room holding the single member `7` with one recorded message. -/
def soloState : ChatState := ⟨[("r", [7])], [("r", ["m1"])]⟩

/-! ## Claim theorems -/

/-- C1: for every room code present in the registry, at every instant
reachable by completed connect/disconnect/receive-loop/room-creation
operations, the room's member list has length 0, 1, or 2 — no operation
ever raises a member count above 2. -/
theorem C1_members_at_most_two (s : ChatState) (h : Reachable s)
    (code : String) (members : List Handle)
    (hm : dlookup code s.rooms = some members) : members.length ≤ 2 :=
  (reachable_inv s h).1 code members hm

theorem C1_members_at_most_two_witness : ([0] : List Handle).length ≤ 2 :=
  C1_members_at_most_two (connect 0 "r" initState).1
    (Reachable.conn 0 "r" initState Reachable.init) "r" [0] rfl

/-- C2: in a state where every room is within capacity, `connect` returns
`False` (room full, `REJECTED_ROOM_FULL`) iff the room already holds
exactly 2 members at the time of the call; and on rejection the entire
state — the room's members and all history — is left unchanged, so the
rejected handle is never added. -/
theorem C2_reject_iff_full (ws : Handle) (code : String) (s : ChatState)
    (hb : RoomsBounded s) :
    ((connect ws code s).2 = false ↔
      ∃ m, dlookup code s.rooms = some m ∧ m.length = 2) ∧
    ((connect ws code s).2 = false → (connect ws code s).1 = s) := by
  rcases connect_spec ws code s with ⟨h0, hr, hh, hbt⟩ | ⟨m, hm, h2, heq⟩ |
    ⟨m, hm, h2, hr, hh, hbt⟩
  · refine ⟨⟨fun hf => ?_, fun ⟨m, hm, _⟩ => ?_⟩, fun hf => ?_⟩
    · rw [hbt] at hf; cases hf
    · rw [h0] at hm; cases hm
    · rw [hbt] at hf; cases hf
  · refine ⟨⟨fun _ => ⟨m, hm, ?_⟩, fun _ => ?_⟩, fun _ => ?_⟩
    · have := hb code m hm
      omega
    · rw [heq]
    · rw [heq]
  · refine ⟨⟨fun hf => ?_, fun ⟨m', hm', hlen'⟩ => ?_⟩, fun hf => ?_⟩
    · rw [hbt] at hf; cases hf
    · rw [hm] at hm'
      simp only [Option.some.injEq] at hm'
      subst hm'
      exfalso
      omega
    · rw [hbt] at hf; cases hf

theorem C2_reject_iff_full_witness :
    ((connect 3 "r" fullState).2 = false ↔
      ∃ m, dlookup "r" fullState.rooms = some m ∧ m.length = 2) ∧
    ((connect 3 "r" fullState).2 = false → (connect 3 "r" fullState).1 = fullState) := by
  refine C2_reject_iff_full 3 "r" fullState ?_
  intro c m hc
  simp only [fullState, dlookup] at hc
  split at hc
  · simp only [Option.some.injEq] at hc
    subst hc
    decide
  · cases hc

/-- C9: `create_room` eagerly registers the generated code: immediately
after the call the code names a room present in the registry with empty
members and empty history (before any member joins), `list_rooms` includes
it, and the operation is total (never fails). -/
theorem C9_create_room_eager (code : String) (s : ChatState) :
    dlookup code (create_room code s).rooms = some [] ∧
    dlookup code (create_room code s).chat_history = some [] ∧
    code ∈ list_rooms (create_room code s) := by
  refine ⟨?_, ?_, ?_⟩
  · rw [create_room_rooms]
    exact dlookup_dinsert_self code [] s.rooms
  · rw [create_room_history]
    exact dlookup_dinsert_self code [] s.chat_history
  · refine (mem_dkeys code (create_room code s).rooms).mpr ?_
    rw [create_room_rooms, dlookup_dinsert_self]
    rfl

/-- C10: every reachable state binds exactly the same keys in `rooms` and
`chat_history`; consequently, whenever a handle is currently a member of
room `c`, the key `c` is present in `chat_history`, so the receive loop's
unguarded `chat_history[room_code].append(data)` cannot raise `KeyError`
(the loop body returns a result rather than the `KeyError` outcome). -/
theorem C10_keysets_identical (s : ChatState) (h : Reachable s) :
    (∀ c, (dlookup c s.rooms).isSome = (dlookup c s.chat_history).isSome) ∧
    (∀ c (ws : Handle) members data, dlookup c s.rooms = some members →
      ws ∈ members → (recordAndBroadcast c ws data s).isSome = true) := by
  have ha := (reachable_inv s h).2
  refine ⟨ha, ?_⟩
  intro c ws members data hm hmem
  have h1 : (dlookup c s.chat_history).isSome = true := by
    rw [← ha c, hm]
    rfl
  cases hx : dlookup c s.chat_history with
  | none => rw [hx] at h1; cases h1
  | some msgs => simp [recordAndBroadcast, hx]

theorem C10_keysets_identical_witness :
    (∀ c, (dlookup c ((connect 0 "r" initState).1).rooms).isSome =
      (dlookup c ((connect 0 "r" initState).1).chat_history).isSome) ∧
    (∀ c (ws : Handle) members data,
      dlookup c ((connect 0 "r" initState).1).rooms = some members →
      ws ∈ members →
      (recordAndBroadcast c ws data (connect 0 "r" initState).1).isSome = true) :=
  C10_keysets_identical (connect 0 "r" initState).1
    (Reachable.conn 0 "r" initState Reachable.init)

/-- Post-append state of `pairState` after member 0 records "hello". -/
def pairState1 : ChatState := ⟨[("r", [0, 1])], [("r", ["hello"])]⟩

/-- Post-append state of `pairState1` after member 1 records "world". -/
def pairState2 : ChatState := ⟨[("r", [0, 1])], [("r", ["hello", "world"])]⟩

/-- C3: a receive-loop iteration appends the inbound message verbatim to
the room's history and then delivers it to every member except the sender;
the deliveries are computed on the post-append state (the history append
happens before broadcast delivery), and when call A is serialized before
call B, A's message precedes B's both in the history snapshot and in the
order of the two delivery batches. -/
theorem C3_record_and_broadcast_order (code : String) (a b : Handle)
    (ma mb : String) (s s1 s2 : ChatState)
    (da db : List (Handle × String)) (hist : List String)
    (hh : dlookup code s.chat_history = some hist)
    (h1 : recordAndBroadcast code a ma s = some (s1, da))
    (h2 : recordAndBroadcast code b mb s1 = some (s2, db)) :
    dlookup code s1.chat_history = some (hist ++ [ma]) ∧
    dlookup code s2.chat_history = some ((hist ++ [ma]) ++ [mb]) ∧
    da = broadcast ma code a s1 ∧
    da = (((dlookup code s.rooms).getD []).filter (fun c => c != a)).map
      (fun c => (c, ma)) ∧
    db = broadcast mb code b s2 ∧
    db = (((dlookup code s.rooms).getD []).filter (fun c => c != b)).map
      (fun c => (c, mb)) := by
  obtain ⟨msgs1, hm1, hs1, hd1⟩ := recordAndBroadcast_spec code a ma s s1 da h1
  rw [hh] at hm1
  simp only [Option.some.injEq] at hm1
  subst hm1
  subst hs1
  obtain ⟨msgs2, hm2, hs2, hd2⟩ := recordAndBroadcast_spec code b mb _ s2 db h2
  dsimp only at hm2
  rw [dlookup_dinsert_self] at hm2
  simp only [Option.some.injEq] at hm2
  subst hm2
  subst hs2
  refine ⟨?_, ?_, hd1, ?_, hd2, ?_⟩
  · exact dlookup_dinsert_self ..
  · exact dlookup_dinsert_self ..
  · rw [hd1, broadcast_eq]
  · rw [hd2, broadcast_eq]

theorem C3_record_and_broadcast_order_witness :
    dlookup "r" pairState1.chat_history = some ([] ++ ["hello"]) ∧
    dlookup "r" pairState2.chat_history = some (([] ++ ["hello"]) ++ ["world"]) ∧
    [((1 : Handle), "hello")] = broadcast "hello" "r" 0 pairState1 ∧
    [((1 : Handle), "hello")] =
      (((dlookup "r" pairState.rooms).getD []).filter (fun c => c != 0)).map
        (fun c => (c, "hello")) ∧
    [((0 : Handle), "world")] = broadcast "world" "r" 1 pairState2 ∧
    [((0 : Handle), "world")] =
      (((dlookup "r" pairState.rooms).getD []).filter (fun c => c != 1)).map
        (fun c => (c, "world")) :=
  C3_record_and_broadcast_order "r" 0 1 "hello" "world" pairState pairState1
    pairState2 [(1, "hello")] [(0, "world")] [] rfl rfl rfl

/-- C4 counterexample: `create_room` eagerly registers a room that is
present in the registry with an empty member list — its member count is
zero and has never been nonzero since creation — refuting the claimed
equivalence between registry presence and a member count that has been
nonzero since creation. -/
theorem C4_counterexample :
    dlookup "c" (create_room "c" initState).rooms = some [] ∧
    get_chat_history "c" (create_room "c" initState) = some [] :=
  ⟨rfl, rfl⟩

/-- C4 amended: when the last member of a room leaves, the room and its
history are removed together — a subsequent `get_chat_history` returns
NOT_FOUND and a subsequent `connect` creates a brand-new room with only
the new member and empty history.  Presence in the registry implies a
nonzero member count only for states reachable without `create_room`;
`create_room` itself eagerly registers zero-member rooms
(see the counterexample). -/
theorem C4_amended_last_leave_destroys (s : ChatState) (code : String)
    (h : Handle) (members : List Handle)
    (hm : dlookup code s.rooms = some members) (hmem : h ∈ members)
    (hlast : members.erase h = []) :
    dlookup code (disconnect h code s).rooms = none ∧
    get_chat_history code (disconnect h code s) = none ∧
    (∀ w : Handle,
      (connect w code (disconnect h code s)).2 = true ∧
      dlookup code (connect w code (disconnect h code s)).1.rooms = some [w] ∧
      dlookup code (connect w code (disconnect h code s)).1.chat_history = some []) ∧
    (∀ t : ChatState, ReachableNC t → ∀ c m, dlookup c t.rooms = some m → m ≠ []) := by
  rcases disconnect_spec h code s with ⟨h0, _⟩ | ⟨m, hm', hnm, _⟩ |
    ⟨m, hm', hmem', hempty', hr, hhh⟩ | ⟨m, hm', hmem', hempty', hr, hhh⟩
  · rw [h0] at hm
    cases hm
  · rw [hm] at hm'
    simp only [Option.some.injEq] at hm'
    subst hm'
    exact absurd hmem hnm
  · have hrn : dlookup code (disconnect h code s).rooms = none := by
      rw [hr]
      exact dlookup_derase_self code s.rooms
    have hhn : dlookup code (disconnect h code s).chat_history = none := by
      rw [hhh]
      exact dlookup_derase_self code s.chat_history
    refine ⟨hrn, ?_, ?_, ?_⟩
    · rw [get_chat_history_eq]
      exact hhn
    · intro w
      rcases connect_spec w code (disconnect h code s) with ⟨h0c, hrc, hhc, hbc⟩ |
        ⟨m2, hm2, _, _⟩ | ⟨m2, hm2, _, _, _, _⟩
      · refine ⟨hbc, ?_, ?_⟩
        · rw [hrc]
          exact dlookup_dinsert_self ..
        · rw [hhc]
          exact dlookup_dinsert_self ..
      · rw [hrn] at hm2
        cases hm2
      · rw [hrn] at hm2
        cases hm2
    · intro t ht c m hc
      exact reachableNC_nonempty t ht c m hc
  · rw [hm] at hm'
    simp only [Option.some.injEq] at hm'
    subst hm'
    exact absurd hlast hempty'

theorem C4_amended_last_leave_destroys_witness :
    dlookup "r" (disconnect 7 "r" soloState).rooms = none ∧
    get_chat_history "r" (disconnect 7 "r" soloState) = none ∧
    (∀ w : Handle,
      (connect w "r" (disconnect 7 "r" soloState)).2 = true ∧
      dlookup "r" (connect w "r" (disconnect 7 "r" soloState)).1.rooms = some [w] ∧
      dlookup "r" (connect w "r" (disconnect 7 "r" soloState)).1.chat_history = some []) ∧
    (∀ t : ChatState, ReachableNC t → ∀ c m, dlookup c t.rooms = some m → m ≠ []) :=
  C4_amended_last_leave_destroys soloState "r" 7 [7] rfl (by decide) rfl

/-- C5: `disconnect` is idempotent for a handle occurring at most once in
the member list (distinct websocket objects never repeat): running it
twice leaves registry, members and history exactly as running it once;
and a `disconnect` for a non-member handle, or for an absent room,
changes nothing. -/
theorem C5_disconnect_idempotent (ws : Handle) (code : String) (s : ChatState)
    (hcount : ∀ m, dlookup code s.rooms = some m → m.count ws ≤ 1) :
    disconnect ws code (disconnect ws code s) = disconnect ws code s ∧
    (∀ m, dlookup code s.rooms = some m → ws ∉ m → disconnect ws code s = s) ∧
    (dlookup code s.rooms = none → disconnect ws code s = s) := by
  rcases disconnect_spec ws code s with ⟨h0, heq⟩ | ⟨m, hm, hnm, heq⟩ |
    ⟨m, hm, hmem, hempty, hr, hh⟩ | ⟨m, hm, hmem, hempty, hr, hh⟩
  · exact ⟨by simp only [heq], fun m hm' _ => heq, fun _ => heq⟩
  · refine ⟨by simp only [heq], fun m' hm' hn' => heq, fun h0 => ?_⟩
    rw [h0] at hm
    cases hm
  · refine ⟨?_, ?_, ?_⟩
    · apply disconnect_absent
      rw [hr]
      exact dlookup_derase_self code s.rooms
    · intro m' hm' hn'
      rw [hm] at hm'
      simp only [Option.some.injEq] at hm'
      subst hm'
      exact absurd hmem hn'
    · intro h0
      rw [h0] at hm
      cases hm
  · refine ⟨?_, ?_, ?_⟩
    · have hx : dlookup code (disconnect ws code s).rooms = some (m.erase ws) := by
        rw [hr]
        exact dlookup_dinsert_self ..
      have hcnt := hcount m hm
      have hnin : ws ∉ m.erase ws := by
        intro hin
        have hpos : 0 < (m.erase ws).count ws := List.count_pos_iff.mpr hin
        have hce : (m.erase ws).count ws = m.count ws - 1 := List.count_erase_self ws m
        omega
      exact disconnect_not_mem ws code (disconnect ws code s) (m.erase ws) hx hnin
    · intro m' hm' hn'
      rw [hm] at hm'
      simp only [Option.some.injEq] at hm'
      subst hm'
      exact absurd hmem hn'
    · intro h0
      rw [h0] at hm
      cases hm

theorem C5_disconnect_idempotent_witness :
    disconnect 7 "r" (disconnect 7 "r" soloState) = disconnect 7 "r" soloState ∧
    (∀ m, dlookup "r" soloState.rooms = some m → 7 ∉ m →
      disconnect 7 "r" soloState = soloState) ∧
    (dlookup "r" soloState.rooms = none → disconnect 7 "r" soloState = soloState) := by
  refine C5_disconnect_idempotent 7 "r" soloState ?_
  intro m hm
  have h7 : dlookup "r" soloState.rooms = some [7] := rfl
  rw [h7] at hm
  simp only [Option.some.injEq] at hm
  subst hm
  decide

/-- C6 counterexample: an accepted session (handle 0 joins fresh room "r")
whose receive loop exits through a non-`WebSocketDisconnect` exception
performs zero `disconnect` calls — not exactly one on every exit path as
claimed: only the `except WebSocketDisconnect` handler ever calls
`manager.disconnect`. -/
theorem C6_counterexample :
    (connect 0 "r" initState).2 = true ∧
    (websocket_endpoint 0 "r" [] ExitSignal.otherError initState).2 = 0 :=
  ⟨rfl, rfl⟩

/-- C6 amended: for an accepted session (in a state whose two dicts are
keyed identically), the session handler calls `manager.disconnect` exactly
once when the receive loop exits via `WebSocketDisconnect`, and zero times
when it exits via any other exception. -/
theorem C6_amended_leave_on_disconnect_only (ws : Handle) (code : String)
    (msgs : List String) (sig : ExitSignal) (s : ChatState)
    (ha : KeysAligned s) (hacc : (connect ws code s).2 = true) :
    (websocket_endpoint ws code msgs sig s).2 =
      if sig = ExitSignal.wsDisconnect then 1 else 0 := by
  have hh : (dlookup code (connect ws code s).1.chat_history).isSome = true := by
    rcases connect_spec ws code s with ⟨h0, hrc, hhc, hbc⟩ | ⟨m, hm, h2, heq⟩ |
      ⟨m, hm, h2, hrc, hhc, hbc⟩
    · rw [hhc, dlookup_dinsert_self]
      rfl
    · rw [heq] at hacc
      cases hacc
    · rw [hhc, ← ha code, hm]
      rfl
  have hw : websocket_endpoint ws code msgs sig s =
      receiveLoop code ws msgs sig (connect ws code s).1 := by
    rcases hc : connect ws code s with ⟨s1, b⟩
    cases b
    · rw [hc] at hacc
      cases hacc
    · simp [websocket_endpoint, hc]
  rw [hw]
  exact receiveLoop_leave_count code ws msgs sig (connect ws code s).1 hh

theorem C6_amended_leave_on_disconnect_only_witness :
    (websocket_endpoint 0 "r" ["hi"] ExitSignal.wsDisconnect initState).2 =
      if ExitSignal.wsDisconnect = ExitSignal.wsDisconnect then 1 else 0 :=
  C6_amended_leave_on_disconnect_only 0 "r" ["hi"] ExitSignal.wsDisconnect
    initState (fun _ => rfl) rfl

/-- C7 counterexample: room "r" holds members [0, 1] and member 1's
channel has failed; when 0 broadcasts, the failed `send_text` raises — the
error propagates to the sender's session (surfaced to the sender) — rather
than triggering a `leave` of the failed member 1: `broadcastExc` returns
`Except.error 1` and, having no state output, performs no registry
mutation at all. -/
theorem C7_counterexample :
    broadcastExc (fun h => h == 1) "m" "r" 0 pairState = Except.error 1 :=
  rfl

/-- C7 amended: when some non-sender member's channel has failed,
`broadcast` raises while sending to a failed non-sender member: the
exception escapes to the caller (the sender's session handler) with that
member's identity; the Connection Manager performs no `leave` of the
failed member (broadcast never mutates `rooms` or `chat_history`) and the
delivery is not retried. -/
theorem C7_amended_send_failure_raises (failed : Handle → Bool)
    (message code : String) (sender : Handle) (s : ChatState)
    (members : List Handle) (hm : dlookup code s.rooms = some members)
    (hex : ∃ c ∈ members, c ≠ sender ∧ failed c = true) :
    ∃ e ∈ members, e ≠ sender ∧ failed e = true ∧
      broadcastExc failed message code sender s = Except.error e := by
  obtain ⟨e, he, hes, hef, heq⟩ := sendLoop_error failed message sender members hex
  exact ⟨e, he, hes, hef, by simp [broadcastExc, hm, heq]⟩

theorem C7_amended_send_failure_raises_witness :
    ∃ e ∈ ([0, 1] : List Handle), e ≠ 0 ∧ (fun h : Handle => h == 1) e = true ∧
      broadcastExc (fun h : Handle => h == 1) "m" "r" 0 pairState =
        Except.error e :=
  C7_amended_send_failure_raises (fun h : Handle => h == 1) "m" "r" 0
    pairState [0, 1] rfl ⟨1, by decide, by decide, rfl⟩

/-- C8 counterexample: with the room destroyed (absent from both dicts),
the receive-loop body raises `KeyError` on the unguarded
`chat_history[room_code].append(data)` — modelled by the `none` outcome —
instead of dropping the message silently with no error. -/
theorem C8_counterexample :
    recordAndBroadcast "r" 0 "m" initState = none :=
  rfl

/-- C8 amended: the history append of the receive-loop body is unguarded:
it succeeds exactly when the room's history entry still exists, and raises
an uncaught `KeyError` when the room has been destroyed; only the
broadcast step checks room existence, silently delivering nothing for an
absent room. -/
theorem C8_amended_append_unguarded (code : String) (ws : Handle)
    (data : String) (s : ChatState) :
    ((recordAndBroadcast code ws data s).isSome ↔
      (dlookup code s.chat_history).isSome) ∧
    (dlookup code s.rooms = none → broadcast data code ws s = []) := by
  constructor
  · cases h : dlookup code s.chat_history <;> simp [recordAndBroadcast, h]
  · intro h
    simp [broadcast, h]

theorem C8_amended_append_unguarded_witness :
    (recordAndBroadcast "r" 0 "m" initState).isSome = false ∧
    broadcast "m" "r" 0 initState = [] := by
  refine ⟨rfl, (C8_amended_append_unguarded "r" 0 "m" initState).2 rfl⟩

end Chat
